import Mathlib

/-!
Verification of the loan-eligibility-engine CSV ingestion pipeline.

Shallow embedding of the Python sources:
  * `src/lambda/csv_processor.py` — validator, orchestrator, notifier, handler
  * `src/lambda/db_utils.py`      — batch upsert, upload lifecycle records
  * `src/lambda/process_csv.py`   — the second (legacy) ingestion path

External effects (S3 download, the PostgreSQL store, the webhook POST) are
made explicit: the S3 fetch outcome, the store-error oracle and the webhook
outcome are parameters; the users table and the csv_uploads row are threaded
as explicit state. Timestamps (CURRENT_TIMESTAMP) are modelled as a `Nat`
clock value passed in.
-/

namespace LoanEligibility

/-- A raw CSV row as produced by `csv.DictReader`: a partial map from column
name to string value (`none` when the column is absent from the file). -/
def RowMap := String → Option String

/-- Exact value of a parsed Python decimal literal: an integer mantissa with
the count of fractional digits, denoting `mantissa / 10 ^ frac`. This stands
in for the Python float (none of the verified properties depend on binary
rounding); the pipeline only sign-checks incomes and carries them around,
and equal input strings parse to equal values. -/
structure PyDecimal where
  mantissa : Int
  frac : Nat
deriving DecidableEq

/-- The validated user dictionary returned by `validate_user_data`
(csv_processor.py lines 54-60). -/
structure ValidatedUser where
  email : String
  monthly_income : PyDecimal
  credit_score : Int
  employment_status : String
  age : Int
deriving DecidableEq

/-- A row of the `users` table as written by `insert_users_batch`
(db_utils.py lines 74-84). The schema file is not in src; per the spec the
table also has `created_at`/`updated_at` columns which the INSERT leaves to
their defaults (creation time). Row timestamps are `Nat` clock values. -/
structure UserRow where
  email : String
  monthly_income : PyDecimal
  credit_score : Int
  employment_status : String
  age : Int
  created_at : Nat
  updated_at : Nat
deriving DecidableEq

/-- Whitespace characters removed by Python `str.strip()` (ASCII subset;
non-ASCII whitespace is not modelled). -/
def pySpace (c : Char) : Bool :=
  c == ' ' || c == '\t' || c == '\n' || c == '\r' || c == '\x0b' || c == '\x0c'

/-- Python `str.strip()` on the character list of a string. -/
def pyStripChars (l : List Char) : List Char :=
  ((l.dropWhile pySpace).reverse.dropWhile pySpace).reverse

/-- Python `str.strip()`. -/
def pyStrip (s : String) : String := ⟨pyStripChars s.data⟩

/-- Numeric value of a digit string. -/
def digitsVal (l : List Char) : Nat :=
  l.foldl (fun a c => a * 10 + (c.toNat - 48)) 0

/-- Leading sign of a Python numeric literal: the sign factor and the rest. -/
def pySign (l : List Char) : Int × List Char :=
  match l with
  | '-' :: r => ((-1 : Int), r)
  | '+' :: r => ((1 : Int), r)
  | r => ((1 : Int), r)

/-- Python `int(s)` on a string: strips surrounding whitespace, accepts an
optional sign followed by one or more decimal digits, raises otherwise
(modelled as `none`; underscore digit-grouping and non-ASCII digits are not
modelled). -/
def pyStrToInt (s : String) : Option Int :=
  let t := pyStripChars s.data
  let (sign, digits) := pySign t
  if (!digits.isEmpty) && digits.all Char.isDigit then
    some (sign * (digitsVal digits : Nat))
  else none

/-- Splits a character list on a separator character. -/
def splitOnChar (c : Char) : List Char → List (List Char)
  | [] => [[]]
  | x :: xs =>
    match splitOnChar c xs, x == c with
    | r, true => [] :: r
    | [], false => [[x]]
    | h :: t, false => (x :: h) :: t

/-- Python `float(s)` on a string, restricted to plain decimal literals:
optional sign, digits with an optional fractional part (exponents, `inf`
and `nan` are not modelled; no verified property depends on them). -/
def pyStrToFloat (s : String) : Option PyDecimal :=
  let t := pyStripChars s.data
  let (sign, body) := pySign t
  match splitOnChar '.' body with
  | [ip] =>
    if (!ip.isEmpty) && ip.all Char.isDigit then
      some ⟨sign * (digitsVal ip : Nat), 0⟩
    else none
  | [ip, fp] =>
    if (!ip.isEmpty || !fp.isEmpty)
        && ip.all Char.isDigit && fp.all Char.isDigit then
      some ⟨sign * ((digitsVal ip * 10 ^ fp.length + digitsVal fp : Nat)), fp.length⟩
    else none
  | _ => none

/-- Python `int(row.get(k, 0))`: the absent-column default is the integer 0,
which `int` returns unchanged; a present value is parsed as a string. -/
def pyIntField (v : Option String) : Option Int :=
  match v with
  | none => some 0
  | some s => pyStrToInt s

/-- Python `float(row.get(k, 0))`: the absent-column default is the integer
0, which `float` converts to 0.0; a present value is parsed as a string. -/
def pyFloatField (v : Option String) : Option PyDecimal :=
  match v with
  | none => some ⟨0, 0⟩
  | some s => pyStrToFloat s

/-- The stripped email field of a row (csv_processor.py line 33). -/
def trimmedEmail (row : RowMap) : List Char :=
  pyStripChars ((row "email").getD "").data

/-- `validate_user_data` (csv_processor.py lines 24-64): trims the email and
requires it non-empty with an `@`; parses income, credit score and age with
defaults of 0; range-checks credit score, age and income. Every raised
`ValueError` (and any other exception) is caught and turned into `None`,
modelled as `none`. -/
def validate_user_data (row : RowMap) : Option ValidatedUser :=
  if (trimmedEmail row).isEmpty || !((trimmedEmail row).contains '@') then none
  else
    match pyFloatField (row "monthly_income"),
          pyIntField (row "credit_score"), pyIntField (row "age") with
    | some monthly_income, some credit_score, some age =>
      if credit_score < 300 || credit_score > 850 then none
      else if age < 18 || age > 100 then none
      else if monthly_income.mantissa < 0 then none
      else some { email := ⟨trimmedEmail row⟩, monthly_income := monthly_income,
                  credit_score := credit_score,
                  employment_status := pyStrip ((row "employment_status").getD ""),
                  age := age }
    | _, _, _ => none

/-! ### The users table and the batch upsert (db_utils.py) -/

/-- One `INSERT ... ON CONFLICT (email) DO UPDATE` statement from
`insert_users_batch` (db_utils.py lines 74-84) applied to the users table.
When a row with the email exists, the four mutable fields are set from the
incoming record and `updated_at` is set to the current time (`created_at`
is not in the update list, so it is untouched); otherwise a fresh row is
inserted with both timestamps at the current time (timestamp defaults for
the insert come from the schema, which src does not contain; the spec gives
the two timestamp columns). -/
def upsertUpdate (now : Nat) (db : List UserRow) (u : ValidatedUser) : List UserRow :=
  if db.any (fun r => r.email = u.email) then
    db.map (fun r =>
      if r.email = u.email then
        { r with monthly_income := u.monthly_income, credit_score := u.credit_score,
                 employment_status := u.employment_status, age := u.age,
                 updated_at := now }
      else r)
  else
    db ++ [{ email := u.email, monthly_income := u.monthly_income,
             credit_score := u.credit_score, employment_status := u.employment_status,
             age := u.age, created_at := now, updated_at := now }]

/-- State of the single database transaction that `get_db_cursor`
(db_utils.py lines 33-54) opens for one `insert_users_batch` call: the
uncommitted table contents, and whether a statement has already failed
(PostgreSQL then rejects every further statement in the transaction). -/
structure TxState where
  pending : List UserRow
  aborted : Bool
deriving DecidableEq

/-- Loop state of `insert_users_batch`: statement index, the two counters,
the collected error messages and the transaction. -/
structure BatchAcc where
  idx : Nat
  success_count : Nat
  failed_count : Nat
  errors : List String
  tx : TxState
deriving DecidableEq

/-- The error PostgreSQL/psycopg2 reports for a statement issued inside a
transaction in which an earlier statement failed. -/
def inFailedTxMsg : String :=
  "current transaction is aborted, commands ignored until end of transaction block"

/-- One iteration of the `insert_users_batch` loop (db_utils.py lines
72-89). `oracle acc.idx = some m` means the INSERT statement for this
record raises a store error with message `m`; a statement in an aborted
transaction fails by itself. Every exception is caught in the loop: the
record is counted as failed and a message recorded, and the loop goes on. -/
def insertUserStep (oracle : Nat → Option String) (now : Nat)
    (acc : BatchAcc) (u : ValidatedUser) : BatchAcc :=
  if acc.tx.aborted then
    { acc with
      idx := acc.idx + 1
      failed_count := acc.failed_count + 1
      errors := acc.errors ++
        ["Failed to insert user " ++ u.email ++ ": " ++ inFailedTxMsg] }
  else
    match oracle acc.idx with
    | some m =>
      { acc with
        idx := acc.idx + 1
        failed_count := acc.failed_count + 1
        errors := acc.errors ++ ["Failed to insert user " ++ u.email ++ ": " ++ m]
        tx := { acc.tx with aborted := true } }
    | none =>
      { acc with
        idx := acc.idx + 1
        success_count := acc.success_count + 1
        tx := { acc.tx with pending := upsertUpdate now acc.tx.pending u } }

/-- `insert_users_batch` (db_utils.py lines 57-91): runs all statements in
the one transaction opened by `get_db_cursor` and then commits. Since the
loop swallows every per-statement exception, the commit is always reached;
committing an aborted transaction is a rollback, so in that case the table
reverts to its prior contents. Returns
`((success_count, failed_count, errors), users table after commit)`. -/
def insert_users_batch (oracle : Nat → Option String) (now : Nat)
    (db : List UserRow) (users_data : List ValidatedUser) :
    (Nat × Nat × List String) × List UserRow :=
  let acc := users_data.foldl (insertUserStep oracle now)
    { idx := 0, success_count := 0, failed_count := 0, errors := [],
      tx := { pending := db, aborted := false } }
  ((acc.success_count, acc.failed_count, acc.errors),
   if acc.tx.aborted then db else acc.tx.pending)

/-! ### The orchestrator (csv_processor.py) -/

/-- Loop state of the row loop in `process_csv_file` (lines 88-101). -/
structure ScanAcc where
  total : Nat
  users_data : List ValidatedUser
  invalid : Nat
  errors : List String
deriving DecidableEq

/-- One iteration of the row loop (csv_processor.py lines 93-101): count
the row, keep it if it validates, otherwise count it invalid and record the
generic message (the detailed reason is only written to the log). -/
def scanRowStep (acc : ScanAcc) (row : RowMap) : ScanAcc :=
  let t := acc.total + 1
  match validate_user_data row with
  | some u => { acc with total := t, users_data := acc.users_data ++ [u] }
  | none =>
    { acc with
      total := t
      invalid := acc.invalid + 1
      errors := acc.errors ++ ["Row " ++ toString t ++ ": Invalid data"] }

/-- The row loop of `process_csv_file` over all data rows of the file. -/
def scanRows (rows : List RowMap) : ScanAcc :=
  rows.foldl scanRowStep { total := 0, users_data := [], invalid := 0, errors := [] }

/-- Counts and error list returned by one `process_csv_file` run
(csv_processor.py line 115). -/
structure ProcessResult where
  total_records : Nat
  processed_records : Nat
  failed_records : Nat
  errors : List String
deriving DecidableEq

/-- `process_csv_file` (csv_processor.py lines 67-115). `fetch` is the
outcome of the S3 download and UTF-8 decode, already split into header-keyed
rows (`error e` = the exception, which the function re-raises). Returns the
counts/errors together with the users table afterwards. -/
def process_csv_file (fetch : Except String (List RowMap))
    (oracle : Nat → Option String) (now : Nat) (db : List UserRow) :
    Except String (ProcessResult × List UserRow) :=
  match fetch with
  | .error e => .error e
  | .ok rows =>
    let s := scanRows rows
    if s.users_data.isEmpty then
      .ok ({ total_records := s.total, processed_records := 0,
             failed_records := s.total, errors := s.errors }, db)
    else
      let r := insert_users_batch oracle now db s.users_data
      .ok ({ total_records := s.total, processed_records := r.1.1,
             failed_records := s.invalid + r.1.2.1,
             errors := s.errors ++ r.1.2.2 }, r.2)

/-! ### Upload lifecycle records (db_utils.py) -/

/-- One row of the `csv_uploads` table (counts and message are NULLable;
`processed_at` is NULL until a terminal transition). -/
structure UploadBatch where
  status : String
  total_records : Option Nat
  processed_records : Option Nat
  failed_records : Option Nat
  error_message : Option String
  processed_at : Option Nat
deriving DecidableEq

/-- `create_csv_upload_record` (db_utils.py lines 133-148): inserts a new
row with status `'pending'`; every count column and the error message are
left NULL. -/
def create_csv_upload_record : UploadBatch :=
  { status := "pending", total_records := none, processed_records := none,
    failed_records := none, error_message := none, processed_at := none }

/-- `update_csv_upload_status` (db_utils.py lines 94-130): always sets the
status; sets each count/error column only when the corresponding argument
is not None; stamps `processed_at` when the new status is terminal. -/
def update_csv_upload_status (b : UploadBatch) (status : String)
    (total_records processed_records failed_records : Option Nat)
    (error_message : Option String) (now : Nat) : UploadBatch :=
  { status := status
    total_records := (match total_records with
      | some t => some t | none => b.total_records)
    processed_records := (match processed_records with
      | some p => some p | none => b.processed_records)
    failed_records := (match failed_records with
      | some f => some f | none => b.failed_records)
    error_message := (match error_message with
      | some m => some m | none => b.error_message)
    processed_at := if status = "completed" ∨ status = "failed"
      then some now else b.processed_at }

/-! ### Webhook notifier and handler (csv_processor.py) -/

/-- Outcome of the HTTP POST attempted by the notifier. -/
inductive WebhookOutcome where
  | success
  | non200 (code : Nat)
  | netError (msg : String)
deriving DecidableEq

/-- `trigger_matching_workflow` (csv_processor.py lines 118-149): a silent
no-op when `N8N_WEBHOOK_URL` is unset; otherwise POSTs once and swallows
every outcome (a non-200 code and any exception are only logged). The
Python function returns None on all paths and never raises; the model
returns the POST attempt it made, for bookkeeping only. -/
def trigger_matching_workflow (webhookUrl : Option String)
    (outcome : WebhookOutcome) : Option WebhookOutcome :=
  match webhookUrl with
  | none => none
  | some _ => some outcome

/-- Observable outcome of one `handler` invocation: the upload row, the
users table, the HTTP-style response, and how often the notifier was
invoked. -/
structure HandlerResult where
  batch : UploadBatch
  users : List UserRow
  statusCode : Nat
  bodyCounts : Option (Nat × Nat × Nat)
  bodyError : Option String
  notifierCalls : Nat
deriving DecidableEq

/-- `handler` (csv_processor.py lines 152-219) for a well-formed trigger
event: create the upload record, process the file, finalize the record as
`'completed'` with the counts and the first 10 error messages (or as
`'failed'` with the exception text when processing raised), fire the
notifier exactly once on success, and answer 200 with the counts or 500
with the error. -/
def handler (fetch : Except String (List RowMap))
    (oracle : Nat → Option String) (webhookUrl : Option String)
    (outcome : WebhookOutcome) (now : Nat) (db : List UserRow) : HandlerResult :=
  let b0 := create_csv_upload_record
  match process_csv_file fetch oracle now db with
  | .ok (r, db') =>
    let b1 := update_csv_upload_status b0 "completed" (some r.total_records)
      (some r.processed_records) (some r.failed_records)
      (if r.errors.isEmpty then none
       else some (String.intercalate "; " (r.errors.take 10))) now
    let _ := trigger_matching_workflow webhookUrl outcome
    { batch := b1, users := db', statusCode := 200,
      bodyCounts := some (r.total_records, r.processed_records, r.failed_records),
      bodyError := none, notifierCalls := 1 }
  | .error e =>
    { batch := update_csv_upload_status b0 "failed" none none none (some e) now,
      users := db, statusCode := 500, bodyCounts := none,
      bodyError := some e, notifierCalls := 0 }

/-! ### The legacy ingestion path (process_csv.py) -/

/-- A row of the users table as written by process_csv.py's
`lambda_handler`, which also fills the `user_id` and `name` columns. -/
structure LegacyUserRow where
  user_id : String
  name : String
  email : String
  monthly_income : PyDecimal
  credit_score : Int
  employment_status : String
  age : Int
deriving DecidableEq

/-- One `INSERT ... ON CONFLICT (email) DO NOTHING` statement from
process_csv.py's `lambda_handler` (lines 65-77): when a row with the email
already exists the statement changes nothing and reports rowcount 0;
otherwise it inserts the row. Returns the table and whether a row was
inserted. -/
def insertDoNothing (db : List LegacyUserRow) (u : LegacyUserRow) :
    List LegacyUserRow × Bool :=
  if db.any (fun r => r.email = u.email) then (db, false) else (db ++ [u], true)

/-! ### Concrete inputs used to exercise the pipeline -/

/-- A CSV row that passes validation. -/
def goodRow : RowMap := fun k =>
  if k = "email" then some "alice@example.com"
  else if k = "monthly_income" then some "1000.50"
  else if k = "credit_score" then some "700"
  else if k = "age" then some "30"
  else if k = "employment_status" then some " employed " else none

/-- The validated record produced from `goodRow`. -/
def goodUserData : ValidatedUser :=
  { email := "alice@example.com", monthly_income := ⟨100050, 2⟩,
    credit_score := 700, employment_status := "employed", age := 30 }

/-- A CSV row whose credit score 900 is above the accepted range. -/
def creditRow900 : RowMap := fun k =>
  if k = "email" then some "bob@example.com"
  else if k = "monthly_income" then some "1000"
  else if k = "credit_score" then some "900"
  else if k = "age" then some "30" else none

/-- The store-error oracle of a run in which no statement fails. -/
def noFail : Nat → Option String := fun _ => none

/-- The store-error oracle of a run in which exactly the second INSERT
statement (index 1) raises a transient store error. -/
def failSecond : Nat → Option String :=
  fun i => if i = 1 then some "deadlock detected" else none

/-- A validated record for alice. -/
def aliceData : ValidatedUser :=
  { email := "alice@a.com", monthly_income := ⟨1000, 0⟩, credit_score := 700,
    employment_status := "", age := 30 }

/-- A validated record for bob. -/
def bobData : ValidatedUser :=
  { email := "bob@b.com", monthly_income := ⟨2000, 0⟩, credit_score := 650,
    employment_status := "", age := 40 }

/-- A validated record for carol. -/
def carolData : ValidatedUser :=
  { email := "carol@c.com", monthly_income := ⟨1500, 0⟩, credit_score := 720,
    employment_status := "", age := 35 }

/-- A stored users row for alice, created and last updated at time 5. -/
def aliceRow : UserRow :=
  { email := "alice@a.com", monthly_income := ⟨1000, 0⟩, credit_score := 700,
    employment_status := "", age := 30, created_at := 5, updated_at := 5 }

/-- A re-ingested alice record with a new income and credit score. -/
def aliceData2 : ValidatedUser :=
  { email := "alice@a.com", monthly_income := ⟨2000, 0⟩, credit_score := 750,
    employment_status := "retired", age := 31 }

/-- The row the upsert should leave for alice after re-ingestion at time 9. -/
def aliceRowUpd : UserRow :=
  { email := "alice@a.com", monthly_income := ⟨2000, 0⟩, credit_score := 750,
    employment_status := "retired", age := 31, created_at := 5, updated_at := 9 }

/-- A stored legacy users row for alice (process_csv.py path). -/
def legacyAlice : LegacyUserRow :=
  { user_id := "u1", name := "Alice", email := "alice@a.com",
    monthly_income := ⟨1000, 0⟩, credit_score := 700,
    employment_status := "employed", age := 30 }

/-- The same legacy applicant re-ingested with a new income. -/
def legacyAliceNew : LegacyUserRow :=
  { user_id := "u1", name := "Alice", email := "alice@a.com",
    monthly_income := ⟨2000, 0⟩, credit_score := 750,
    employment_status := "employed", age := 31 }

/-- Substring test on strings (used to state what an error message does not
carry). -/
def strContainsSub (s pat : String) : Bool :=
  s.data.tails.any (fun t => pat.data.isPrefixOf t)

/-! ### Helper lemmas -/

/-- Every `process_csv_file` run whose fetch succeeded returns a result. -/
lemma process_csv_file_ok (rows : List RowMap) (oracle : Nat → Option String)
    (now : Nat) (db : List UserRow) :
    ∃ z, process_csv_file (.ok rows) oracle now db = .ok z := by
  by_cases h : (scanRows rows).users_data.isEmpty = true <;>
    simp [process_csv_file, h]

/-- The row loop counts every data row exactly once. -/
lemma scan_foldl_total (rows : List RowMap) (acc : ScanAcc) :
    (rows.foldl scanRowStep acc).total = acc.total + rows.length := by
  induction rows generalizing acc with
  | nil => simp
  | cons row rows ih =>
    rw [List.foldl_cons, ih]
    cases hv : validate_user_data row <;> simp [scanRowStep, hv] <;> omega

/-- The row loop sends every data row either to `users_data` or to the
invalid counter. -/
lemma scan_foldl_split (rows : List RowMap) (acc : ScanAcc) :
    (rows.foldl scanRowStep acc).users_data.length
      + (rows.foldl scanRowStep acc).invalid
      = acc.users_data.length + acc.invalid + rows.length := by
  induction rows generalizing acc with
  | nil => simp
  | cons row rows ih =>
    rw [List.foldl_cons, ih]
    cases hv : validate_user_data row <;> simp [scanRowStep, hv] <;> omega

/-- Each record in the batch loop increments exactly one of the two
counters. -/
lemma batch_foldl_counts (us : List ValidatedUser) (oracle : Nat → Option String)
    (now : Nat) (acc : BatchAcc) :
    (us.foldl (insertUserStep oracle now) acc).success_count
      + (us.foldl (insertUserStep oracle now) acc).failed_count
      = acc.success_count + acc.failed_count + us.length := by
  induction us generalizing acc with
  | nil => simp
  | cons u us ih =>
    rw [List.foldl_cons, ih]
    by_cases ha : acc.tx.aborted = true
    · simp [insertUserStep, ha]; omega
    · rw [insertUserStep, if_neg ha]
      cases oracle acc.idx <;> simp <;> omega

/-! ### C4 — per-record failure isolation in the batch upsert -/

/-- C4: evaluating `insert_users_batch` at the failing input. Three valid
records on an empty table; only the second statement hits a transient store
error. The code reports `success_count = 1` and goes on to carol, but
carol's statement fails inside the already-aborted transaction and the
final commit rolls alice back: the committed table is empty, so the
returned counts do not reflect which records were durably applied, and the
failure was not isolated to bob's record. -/
theorem batch_failure_not_isolated_evaluation :
    (insert_users_batch failSecond 7 [] [aliceData, bobData, carolData]).1.1 = 1 ∧
    (insert_users_batch failSecond 7 [] [aliceData, bobData, carolData]).1.2.1 = 2 ∧
    (insert_users_batch failSecond 7 [] [aliceData, bobData, carolData]).2 = [] ∧
    (insert_users_batch failSecond 7 [] [aliceData, bobData, carolData]).1.2.2 =
      ["Failed to insert user bob@b.com: deadlock detected",
       "Failed to insert user carol@c.com: " ++ inFailedTxMsg] := by
  decide

/-! ### C9 — empty payload -/

/-- C9: a payload with zero data rows yields total = processed = failed = 0,
the upsert step is skipped (the users table is returned untouched), no
error message is stored, and the batch is finalized as completed. -/
theorem empty_payload_completed (oracle : Nat → Option String)
    (webhookUrl : Option String) (o : WebhookOutcome) (now : Nat)
    (db : List UserRow) :
    (handler (.ok []) oracle webhookUrl o now db).batch.status = "completed" ∧
    (handler (.ok []) oracle webhookUrl o now db).batch.total_records = some 0 ∧
    (handler (.ok []) oracle webhookUrl o now db).batch.processed_records = some 0 ∧
    (handler (.ok []) oracle webhookUrl o now db).batch.failed_records = some 0 ∧
    (handler (.ok []) oracle webhookUrl o now db).batch.error_message = none ∧
    (handler (.ok []) oracle webhookUrl o now db).users = db ∧
    process_csv_file (.ok []) oracle now db =
      .ok ({ total_records := 0, processed_records := 0, failed_records := 0,
             errors := [] }, db) := by
  refine ⟨rfl, rfl, rfl, rfl, rfl, rfl, rfl⟩

/-! ### C6 — fetch failure -/

/-- C6: when the S3 payload cannot be fetched, `process_csv_file` re-raises
before touching any row, the handler records status 'failed' with the
(non-empty) exception text as error message, the users table is untouched,
the counts stay NULL, the notifier is not invoked, and the failure is
surfaced to the caller as the 500 response carrying the error. -/
theorem fetch_failure_finalizes_failed (e : String)
    (oracle : Nat → Option String) (webhookUrl : Option String)
    (o : WebhookOutcome) (now : Nat) (db : List UserRow) (he : e ≠ "") :
    (handler (.error e) oracle webhookUrl o now db).batch.status = "failed" ∧
    (handler (.error e) oracle webhookUrl o now db).batch.error_message = some e ∧
    (∀ m, (handler (.error e) oracle webhookUrl o now db).batch.error_message
        = some m → m ≠ "") ∧
    (handler (.error e) oracle webhookUrl o now db).batch.total_records = none ∧
    (handler (.error e) oracle webhookUrl o now db).batch.processed_records = none ∧
    (handler (.error e) oracle webhookUrl o now db).batch.failed_records = none ∧
    (handler (.error e) oracle webhookUrl o now db).users = db ∧
    (handler (.error e) oracle webhookUrl o now db).statusCode = 500 ∧
    (handler (.error e) oracle webhookUrl o now db).bodyError = some e ∧
    (handler (.error e) oracle webhookUrl o now db).notifierCalls = 0 ∧
    process_csv_file (.error e) oracle now db = .error e := by
  refine ⟨rfl, rfl, ?_, rfl, rfl, rfl, rfl, rfl, rfl, rfl, rfl⟩
  intro m hm
  have : m = e := by
    have := hm
    simp [handler, process_csv_file, update_csv_upload_status,
      create_csv_upload_record] at this
    exact this.symm
  rw [this]; exact he

/-- C6 witness: a concrete unfetchable payload. -/
theorem fetch_failure_finalizes_failed_witness :
    ("NoSuchKey: The specified key does not exist." ≠ "") ∧
    (handler (.error "NoSuchKey: The specified key does not exist.")
        noFail none .success 3 []).batch.status = "failed" ∧
    (handler (.error "NoSuchKey: The specified key does not exist.")
        noFail none .success 3 []).batch.error_message
      = some "NoSuchKey: The specified key does not exist." :=
  ⟨by decide,
   (fetch_failure_finalizes_failed "NoSuchKey: The specified key does not exist."
     noFail none .success 3 [] (by decide)).1,
   (fetch_failure_finalizes_failed "NoSuchKey: The specified key does not exist."
     noFail none .success 3 [] (by decide)).2.1⟩

/-! ### C7 — notifier invoked once, errors swallowed -/

/-- C7: on every run whose processing completes, the notifier is invoked
exactly once, and neither the webhook destination nor the outcome of the
POST (success, non-2xx, network error, or missing configuration) has any
effect on the finalized upload row, the users table, or the returned
response. -/
theorem notifier_once_and_isolated (rows : List RowMap)
    (oracle : Nat → Option String) (url url' : Option String)
    (o o' : WebhookOutcome) (now : Nat) (db : List UserRow) :
    (handler (.ok rows) oracle url o now db).notifierCalls = 1 ∧
    (handler (.ok rows) oracle url o now db).batch
      = (handler (.ok rows) oracle url' o' now db).batch ∧
    (handler (.ok rows) oracle url o now db).users
      = (handler (.ok rows) oracle url' o' now db).users ∧
    (handler (.ok rows) oracle url o now db).statusCode
      = (handler (.ok rows) oracle url' o' now db).statusCode ∧
    (handler (.ok rows) oracle url o now db).bodyCounts
      = (handler (.ok rows) oracle url' o' now db).bodyCounts := by
  obtain ⟨z, hz⟩ := process_csv_file_ok rows oracle now db
  refine ⟨?_, ?_, ?_, ?_, ?_⟩ <;> simp [handler, hz]

/-! ### C1 — counts invariant at terminal state -/

/-- C1: whenever a run of the orchestrator finalizes the upload record with
all three counts present, they satisfy total = processed + failed: the row
loop splits the rows into valid records and validation rejections, and the
batch loop counts each record as exactly one success or failure. -/
theorem finalized_counts_consistent (fetch : Except String (List RowMap))
    (oracle : Nat → Option String) (webhookUrl : Option String)
    (o : WebhookOutcome) (now : Nat) (db : List UserRow) (t p f : Nat)
    (ht : (handler fetch oracle webhookUrl o now db).batch.total_records = some t)
    (hp : (handler fetch oracle webhookUrl o now db).batch.processed_records = some p)
    (hf : (handler fetch oracle webhookUrl o now db).batch.failed_records = some f) :
    t = p + f := by
  cases fetch with
  | error e =>
    simp [handler, process_csv_file, update_csv_upload_status,
      create_csv_upload_record] at ht
  | ok rows =>
    have htot : (scanRows rows).total = rows.length := by
      simpa [scanRows] using scan_foldl_total rows
        { total := 0, users_data := [], invalid := 0, errors := [] }
    have hsplit : (scanRows rows).users_data.length + (scanRows rows).invalid
        = rows.length := by
      simpa [scanRows] using scan_foldl_split rows
        { total := 0, users_data := [], invalid := 0, errors := [] }
    by_cases h : (scanRows rows).users_data.isEmpty = true
    · simp [handler, process_csv_file, h, update_csv_upload_status] at ht hp hf
      omega
    · have hcnt : (insert_users_batch oracle now db (scanRows rows).users_data).1.1
          + (insert_users_batch oracle now db (scanRows rows).users_data).1.2.1
          = (scanRows rows).users_data.length := by
        simpa [insert_users_batch] using
          batch_foldl_counts (scanRows rows).users_data oracle now
            { idx := 0, success_count := 0, failed_count := 0, errors := [],
              tx := { pending := db, aborted := false } }
      simp [handler, process_csv_file, h, update_csv_upload_status] at ht hp hf
      omega

/-- C1 witness: a two-row payload (one invalid, one valid) gives the
persisted counts total 2, processed 1, failed 1. -/
theorem finalized_counts_consistent_witness :
    (handler (.ok [creditRow900, goodRow]) noFail none .success 3
        []).batch.total_records = some 2 ∧
    (handler (.ok [creditRow900, goodRow]) noFail none .success 3
        []).batch.processed_records = some 1 ∧
    (handler (.ok [creditRow900, goodRow]) noFail none .success 3
        []).batch.failed_records = some 1 ∧
    (2 : Nat) = 1 + 1 :=
  ⟨by decide, by decide, by decide,
   finalized_counts_consistent (.ok [creditRow900, goodRow]) noFail none
     .success 3 [] 2 1 1 (by decide) (by decide) (by decide)⟩

/-! ### C5 — the validator rejects out-of-range and malformed fields -/

/-- The row's credit_score does not parse as an integer in [300, 850]
(covers both parse failures and out-of-range values). -/
def credit_score_invalid (row : RowMap) : Prop :=
  ∀ n : Int, pyIntField (row "credit_score") = some n → n < 300 ∨ 850 < n

/-- The row's age does not parse as an integer in [18, 100]. -/
def age_invalid (row : RowMap) : Prop :=
  ∀ n : Int, pyIntField (row "age") = some n → n < 18 ∨ 100 < n

/-- The row's email, after trimming, lacks an '@' character. -/
def email_invalid (row : RowMap) : Prop :=
  (trimmedEmail row).contains '@' = false

/-- C5: whenever credit_score does not parse as an integer in [300, 850],
or age does not parse as an integer in [18, 100], or the trimmed email
lacks an '@', the validator rejects the row. -/
theorem validator_rejects_out_of_range (row : RowMap)
    (h : credit_score_invalid row ∨ age_invalid row ∨ email_invalid row) :
    validate_user_data row = none := by
  unfold validate_user_data
  by_cases he : ((trimmedEmail row).isEmpty
      || !((trimmedEmail row).contains '@')) = true
  · rw [if_pos he]
  · have hcontains : (trimmedEmail row).contains '@' = true := by
      rcases Bool.or_eq_false_iff.mp (Bool.eq_false_iff.mpr he) with ⟨-, h2⟩
      simpa using h2
    rw [if_neg he]
    split
    · rename_i mi cs a heqmi heqcs heqag
      rcases h with hbad | hbad | hbad
      · have hb : (decide (cs < 300) || decide (cs > 850)) = true := by
          rcases hbad cs heqcs with h' | h' <;> simp [h']
        rw [hb, if_pos rfl]
      · by_cases hcr : (decide (cs < 300) || decide (cs > 850)) = true
        · rw [hcr, if_pos rfl]
        · have hb : (decide (a < 18) || decide (a > 100)) = true := by
            rcases hbad a heqag with h' | h' <;> simp [h']
          rw [Bool.eq_false_iff.mpr hcr, hb, if_neg (by simp), if_pos rfl]
      · rw [email_invalid, hcontains] at hbad
        cases hbad
    · rfl

/-- C5 witness: the concrete row with credit score 900 is rejected. -/
theorem validator_rejects_out_of_range_witness :
    validate_user_data creditRow900 = none :=
  validator_rejects_out_of_range creditRow900 (Or.inl (fun n hn => by
    have h0 : pyIntField (creditRow900 "credit_score") = some 900 := by decide
    rw [h0] at hn
    injection hn with h1
    subst h1
    right
    decide))

/-! ### C10 — absent credit_score or age keys are rejected -/

/-- C10: a missing credit_score key, and likewise a missing age key, makes
the validator reject the row: the absent value is substituted with 0
(`pyIntField none = some 0`), which lies outside [300, 850] and [18, 100],
so both are effectively required even though only email is checked for
presence. -/
theorem missing_numeric_fields_rejected (row : RowMap) :
    pyIntField none = some 0 ∧
    (row "credit_score" = none → validate_user_data row = none) ∧
    (row "age" = none → validate_user_data row = none) := by
  refine ⟨rfl, ?_, ?_⟩ <;> intro hk <;> unfold validate_user_data <;>
    by_cases he : ((trimmedEmail row).isEmpty
      || !((trimmedEmail row).contains '@')) = true
  · rw [if_pos he]
  · rw [if_neg he, hk]
    split
    · rename_i mi cs a heqmi heqcs heqag
      have : cs = 0 := by
        rw [show pyIntField none = some 0 from rfl] at heqcs
        injection heqcs with h1
        exact h1.symm
      subst this
      rw [show (decide ((0 : Int) < 300) || decide ((0 : Int) > 850)) = true
        from by decide, if_pos rfl]
    · rfl
  · rw [if_pos he]
  · rw [if_neg he, hk]
    split
    · rename_i mi cs a heqmi heqcs heqag
      have : a = 0 := by
        rw [show pyIntField none = some 0 from rfl] at heqag
        injection heqag with h1
        exact h1.symm
      subst this
      by_cases hcr : (decide (cs < 300) || decide (cs > 850)) = true
      · rw [hcr, if_pos rfl]
      · rw [Bool.eq_false_iff.mpr hcr, if_neg (by simp),
          show (decide ((0 : Int) < 18) || decide ((0 : Int) > 100)) = true
            from by decide, if_pos rfl]
    · rfl

/-- C10 witness: a row having only an email is rejected through both
missing keys. -/
theorem missing_numeric_fields_rejected_witness :
    validate_user_data (fun k => if k = "email" then some "a@b.com" else none)
      = none :=
  (missing_numeric_fields_rejected
    (fun k => if k = "email" then some "a@b.com" else none)).2.1 (by decide)

/-! ### C2 — conflict resolution on the two write paths -/

/-- C2 counterexample: the claim says overwrite-on-conflict "holds on every
code path that writes user records", but process_csv.py's path uses
`ON CONFLICT DO NOTHING`: re-ingesting alice with a different income leaves
the stored row unchanged, so her mutable fields are not overwritten there. -/
theorem conflict_overwrite_counterexample :
    (insertDoNothing [legacyAlice] legacyAliceNew).1 = [legacyAlice] ∧
    legacyAlice.monthly_income ≠ legacyAliceNew.monthly_income ∧
    (insertDoNothing [legacyAlice] legacyAliceNew).2 = false := by
  decide

/-- C2 amended: on the `insert_users_batch` path (the csv_processor
pipeline), upserting a record whose email already exists overwrites the
four mutable fields, refreshes `updated_at`, and preserves `created_at`;
on the process_csv.py path, the conflicting insert changes nothing. -/
theorem conflict_resolution_by_path (db : List UserRow) (u : ValidatedUser)
    (now : Nat) (hmem : db.any (fun r => r.email = u.email) = true) :
    (∀ r' ∈ upsertUpdate now db u, r'.email = u.email →
        r'.monthly_income = u.monthly_income ∧
        r'.credit_score = u.credit_score ∧
        r'.employment_status = u.employment_status ∧
        r'.age = u.age ∧
        r'.updated_at = now ∧
        ∃ r ∈ db, r.email = u.email ∧ r'.created_at = r.created_at) ∧
    (∀ (ldb : List LegacyUserRow) (lu : LegacyUserRow),
        ldb.any (fun r => r.email = lu.email) = true →
        insertDoNothing ldb lu = (ldb, false)) := by
  constructor
  · intro r' hr' hem
    rw [upsertUpdate, if_pos hmem] at hr'
    rcases List.mem_map.mp hr' with ⟨r, hrdb, hfr⟩
    by_cases hre : r.email = u.email
    · rw [if_pos hre] at hfr
      subst hfr
      exact ⟨rfl, rfl, rfl, rfl, rfl, r, hrdb, hre, rfl⟩
    · rw [if_neg hre] at hfr
      subst hfr
      exact absurd hem hre
  · intro ldb lu hl
    rw [insertDoNothing, if_pos hl]

/-- C2 amended witness: re-ingesting alice at time 9 through the
csv_processor path overwrites her income and refreshes `updated_at` while
keeping `created_at` = 5; through the process_csv.py path the conflicting
insert is a no-op. -/
theorem conflict_resolution_by_path_witness :
    aliceRowUpd.monthly_income = aliceData2.monthly_income ∧
    aliceRowUpd.updated_at = 9 ∧
    aliceRowUpd.created_at = aliceRow.created_at ∧
    insertDoNothing [legacyAlice] legacyAliceNew = ([legacyAlice], false) := by
  have h := conflict_resolution_by_path [aliceRow] aliceData2 9 (by decide)
  obtain ⟨h1, h2, h3, h4, h5, r, hr, hre, hc⟩ :=
    h.1 aliceRowUpd (by decide) (by decide)
  rw [List.mem_singleton] at hr
  subst hr
  exact ⟨h1, h5, hc, h.2 [legacyAlice] legacyAliceNew (by decide)⟩

/-! ### C8 — what a rejection records, and what reaches the store -/

/-- C8 counterexample: the run's recorded error message for a rejected row
is the generic "Row 1: Invalid data"; it carries neither the offending
field name (credit_score) nor the offending value (900), which are only
written to the log. -/
theorem rejection_message_counterexample :
    (scanRows [creditRow900]).errors = ["Row 1: Invalid data"] ∧
    (handler (.ok [creditRow900]) noFail none .success 3 []).batch.error_message
      = some "Row 1: Invalid data" ∧
    creditRow900 "credit_score" = some "900" ∧
    strContainsSub "Row 1: Invalid data" "credit_score" = false ∧
    strContainsSub "Row 1: Invalid data" "900" = false := by
  decide

/-- The row loop records, for exactly the rejected rows, one generic
message carrying the 1-based row index. -/
lemma scan_foldl_errors (rows : List RowMap) (acc : ScanAcc) :
    (rows.foldl scanRowStep acc).errors = acc.errors ++
      ((List.enumFrom acc.total rows).filter
        (fun p => validate_user_data p.2 = none)).map
        (fun p => "Row " ++ toString (p.1 + 1) ++ ": Invalid data") := by
  induction rows generalizing acc with
  | nil => simp
  | cons row rows ih =>
    rw [List.foldl_cons, ih]
    cases hv : validate_user_data row with
    | some u => simp [scanRowStep, hv, List.enumFrom]
    | none => simp [scanRowStep, hv, List.enumFrom]

/-- Everything the row loop accumulates for the upsert comes from a row
that validated in full. -/
lemma scan_foldl_users (rows : List RowMap) (acc : ScanAcc) :
    ∀ u ∈ (rows.foldl scanRowStep acc).users_data,
      u ∈ acc.users_data ∨ ∃ row ∈ rows, validate_user_data row = some u := by
  induction rows generalizing acc with
  | nil => exact fun u hu => Or.inl hu
  | cons row rows ih =>
    intro u hu
    rw [List.foldl_cons] at hu
    rcases ih (scanRowStep acc row) u hu with hin | ⟨r, hr, hvr⟩
    · cases hv : validate_user_data row with
      | some v =>
        simp [scanRowStep, hv] at hin
        rcases hin with hin | rfl
        · exact Or.inl hin
        · exact Or.inr ⟨row, List.mem_cons_self row rows, hv⟩
      | none =>
        simp [scanRowStep, hv] at hin
        exact Or.inl hin
    · exact Or.inr ⟨r, List.mem_cons_of_mem row hr, hvr⟩

/-- C8 amended: for every rejected row the run's error list records exactly
one generic message naming the row's 1-based index ("Row i: Invalid data");
the offending field and value are only logged, not recorded. A rejected row
is never partially accepted: every record handed to the store comes from a
row that validated in full. -/
theorem rejections_recorded_generic_not_stored (rows : List RowMap) :
    (scanRows rows).errors =
      ((rows.enum.filter (fun p => validate_user_data p.2 = none)).map
        (fun p => "Row " ++ toString (p.1 + 1) ++ ": Invalid data")) ∧
    ∀ u ∈ (scanRows rows).users_data,
      ∃ row ∈ rows, validate_user_data row = some u := by
  constructor
  · simpa [scanRows, List.enum_eq_enumFrom] using
      scan_foldl_errors rows { total := 0, users_data := [], invalid := 0, errors := [] }
  · intro u hu
    rcases scan_foldl_users rows
        { total := 0, users_data := [], invalid := 0, errors := [] } u
        (by simpa [scanRows] using hu) with h | h
    · cases h
    · exact h

/-- C8 amended witness: in a run over the bad row and the good row, the one
record that reaches the store comes from the row that validated. -/
theorem rejections_recorded_generic_not_stored_witness :
    ∃ row ∈ [creditRow900, goodRow], validate_user_data row = some goodUserData :=
  (rejections_recorded_generic_not_stored [creditRow900, goodRow]).2
    goodUserData (by decide)

/-! ### C3 — idempotence of re-ingestion -/

/-- The applicant-data columns of a users row (everything except the two
timestamps). -/
def UserRow.dataOf (r : UserRow) : ValidatedUser :=
  { email := r.email, monthly_income := r.monthly_income,
    credit_score := r.credit_score, employment_status := r.employment_status,
    age := r.age }

/-- Data-level view of one upsert statement (timestamps forgotten): since
the statement overwrites every mutable field, a conflicting row becomes the
incoming record. -/
def upsertData (d : List ValidatedUser) (u : ValidatedUser) :
    List ValidatedUser :=
  if d.any (fun r => r.email = u.email) then
    d.map (fun r => if r.email = u.email then u else r)
  else d ++ [u]

/-- Data-level view of a whole batch of upserts. -/
def applyData (d : List ValidatedUser) (us : List ValidatedUser) :
    List ValidatedUser :=
  us.foldl upsertData d

/-- Natural-key lookup in the (data view of the) users table. -/
def lookupData (d : List ValidatedUser) (e : String) : Option ValidatedUser :=
  d.find? (fun r => r.email = e)

/-- The last record with the given email in an ingestion batch: the one
whose values win. -/
def lastVal (us : List ValidatedUser) (e : String) : Option ValidatedUser :=
  us.reverse.find? (fun u => u.email = e)

/-- Overwriting the conflicting row commutes with natural-key search,
because the overwrite preserves every email. -/
lemma find_map_overwrite (d : List ValidatedUser) (u : ValidatedUser)
    (e : String) :
    (d.map (fun r => if r.email = u.email then u else r)).find?
        (fun r => r.email = e)
      = (d.find? (fun r => r.email = e)).map
          (fun r => if r.email = u.email then u else r) := by
  induction d with
  | nil => rfl
  | cons r d ih =>
    by_cases hre : r.email = e
    · have h1 : ((if r.email = u.email then u else r).email = e) := by
        by_cases h2 : r.email = u.email
        · rw [if_pos h2, ← h2]
          exact hre
        · rw [if_neg h2]
          exact hre
      rw [List.map_cons, List.find?_cons_of_pos _ (by simp [h1]),
        List.find?_cons_of_pos _ (by simp [hre])]
      rfl
    · have h1 : ¬ ((if r.email = u.email then u else r).email = e) := by
        by_cases h2 : r.email = u.email
        · rw [if_pos h2, ← h2]
          exact hre
        · rw [if_neg h2]
          exact hre
      rw [List.map_cons, List.find?_cons_of_neg _ (by simp [h1]),
        List.find?_cons_of_neg _ (by simp [hre])]
      exact ih

/-- Lookup after one upsert: the upserted email now maps to the incoming
record, every other email is untouched. -/
lemma lookupData_upsertData (d : List ValidatedUser) (u : ValidatedUser)
    (e : String) :
    lookupData (upsertData d u) e
      = if u.email = e then some u else lookupData d e := by
  rw [upsertData]
  by_cases hany : d.any (fun r => r.email = u.email) = true
  · rw [if_pos hany, lookupData, find_map_overwrite]
    by_cases he : u.email = e
    · subst he
      cases hf : d.find? (fun r => r.email = u.email) with
      | none =>
        rw [List.find?_eq_none] at hf
        rcases List.any_eq_true.mp hany with ⟨r, hrd, hre⟩
        exact absurd hre (by simpa using hf r hrd)
      | some r =>
        have hre : r.email = u.email := by simpa using List.find?_some hf
        rw [if_pos rfl]
        simp [hre]
    · rw [if_neg he, lookupData]
      cases hf : d.find? (fun r => r.email = e) with
      | none => rfl
      | some r =>
        have hre : r.email = e := by simpa using List.find?_some hf
        have hru : ¬ (r.email = u.email) := by
          intro hh
          exact he (by rw [← hh]; exact hre)
        simp [hru]
  · rw [if_neg hany, lookupData, List.find?_append]
    have hnone : d.find? (fun r => r.email = u.email) = none := by
      rw [List.find?_eq_none]
      intro x hx hpx
      exact hany (List.any_eq_true.mpr ⟨x, hx, hpx⟩)
    by_cases he : u.email = e
    · subst he
      rw [hnone]
      simp [List.find?]
    · rw [if_neg he]
      have hone : List.find? (fun r => r.email = e) [u] = none := by
        simp [List.find?, he]
      rw [hone, lookupData]
      cases d.find? (fun r => r.email = e) <;> rfl

/-- Lookup after a whole batch: an email ingested by the batch maps to its
last record in the batch; any other email keeps its prior binding. -/
lemma lookupData_applyData (us : List ValidatedUser) (d : List ValidatedUser)
    (e : String) :
    lookupData (applyData d us) e
      = match lastVal us e with
        | some u => some u
        | none => lookupData d e := by
  induction us generalizing d with
  | nil => rfl
  | cons u us ih =>
    rw [show applyData d (u :: us) = applyData (upsertData d u) us from rfl, ih]
    rw [lookupData_upsertData]
    cases hl : lastVal us e with
    | some v =>
      have hl' : us.reverse.find? (fun x => x.email = e) = some v := hl
      simp [lastVal, List.reverse_cons, List.find?_append, hl']
    | none =>
      have hl' : us.reverse.find? (fun x => x.email = e) = none := hl
      by_cases he : u.email = e
      · simp [lastVal, List.reverse_cons, List.find?_append, hl', he, List.find?]
      · simp [lastVal, List.reverse_cons, List.find?_append, hl', he, List.find?]

/-- One upsert leaves the email column unchanged on conflict and appends
the new email otherwise. -/
lemma emails_upsertData (d : List ValidatedUser) (u : ValidatedUser) :
    (upsertData d u).map (fun r => r.email)
      = if d.any (fun r => r.email = u.email) then d.map (fun r => r.email)
        else d.map (fun r => r.email) ++ [u.email] := by
  rw [upsertData]
  by_cases hany : d.any (fun r => r.email = u.email) = true
  · rw [if_pos hany, if_pos hany, List.map_map]
    refine List.map_congr_left (fun r _ => ?_)
    by_cases hre : r.email = u.email <;> simp [Function.comp, hre]
  · rw [if_neg hany, if_neg hany, List.map_append]
    rfl

/-- One upsert preserves uniqueness of emails. -/
lemma nodup_emails_upsertData (d : List ValidatedUser) (u : ValidatedUser)
    (h : (d.map (fun r => r.email)).Nodup) :
    ((upsertData d u).map (fun r => r.email)).Nodup := by
  rw [emails_upsertData]
  by_cases hany : d.any (fun r => r.email = u.email) = true
  · rwa [if_pos hany]
  · rw [if_neg hany, List.nodup_append]
    refine ⟨h, List.nodup_singleton _, ?_⟩
    intro x hx hx1
    rw [List.mem_singleton] at hx1
    subst hx1
    rcases List.mem_map.mp hx with ⟨r, hrd, hre⟩
    exact hany (List.any_eq_true.mpr ⟨r, hrd, by simp [hre]⟩)

/-- A whole batch preserves uniqueness of emails. -/
lemma nodup_emails_applyData (us : List ValidatedUser) (d : List ValidatedUser)
    (h : (d.map (fun r => r.email)).Nodup) :
    ((applyData d us).map (fun r => r.email)).Nodup := by
  induction us generalizing d with
  | nil => exact h
  | cons u us ih => exact ih (upsertData d u) (nodup_emails_upsertData d u h)

/-- In a table with unique emails, membership is natural-key lookup. -/
lemma lookupData_eq_some_of_mem (d : List ValidatedUser) (r : ValidatedUser)
    (hd : (d.map (fun x => x.email)).Nodup) (hr : r ∈ d) :
    lookupData d r.email = some r := by
  induction d with
  | nil => cases hr
  | cons a d ih =>
    rw [List.map_cons, List.nodup_cons] at hd
    rcases List.mem_cons.mp hr with rfl | hr'
    · rw [lookupData, List.find?_cons_of_pos _ (by simp)]
    · have ha : ¬ (a.email = r.email) := by
        intro hh
        apply hd.1
        rw [hh]
        exact List.mem_map.mpr ⟨r, hr', rfl⟩
      rw [lookupData, List.find?_cons_of_neg _ (by simp [ha])]
      exact ih hd.2 hr'

/-- A successful natural-key lookup returns a member with that email. -/
lemma mem_of_lookupData_eq_some (d : List ValidatedUser) (e : String)
    (r : ValidatedUser) (h : lookupData d e = some r) : r ∈ d ∧ r.email = e :=
  ⟨List.mem_of_find?_eq_some h, by simpa using List.find?_some h⟩

/-- Forgetting timestamps commutes with one upsert statement. -/
lemma map_dataOf_upsertUpdate (now : Nat) (db : List UserRow)
    (u : ValidatedUser) :
    (upsertUpdate now db u).map UserRow.dataOf
      = upsertData (db.map UserRow.dataOf) u := by
  rw [upsertUpdate, upsertData]
  have hany : ∀ l : List UserRow,
      (l.map UserRow.dataOf).any (fun r => r.email = u.email)
        = l.any (fun r => r.email = u.email) := by
    intro l
    induction l with
    | nil => rfl
    | cons a l ihl => simp [List.any_cons, ihl, UserRow.dataOf]
  rw [hany]
  by_cases h : db.any (fun r => r.email = u.email) = true
  · rw [if_pos h, if_pos h, List.map_map, List.map_map]
    refine List.map_congr_left (fun r _ => ?_)
    by_cases hre : r.email = u.email <;>
      simp [Function.comp, hre, UserRow.dataOf]
  · rw [if_neg h, if_neg h, List.map_append]
    rfl

/-- Forgetting timestamps commutes with a whole batch of upserts. -/
lemma map_dataOf_foldl (us : List ValidatedUser) (now : Nat)
    (db : List UserRow) :
    (us.foldl (upsertUpdate now) db).map UserRow.dataOf
      = applyData (db.map UserRow.dataOf) us := by
  induction us generalizing db with
  | nil => rfl
  | cons u us ih =>
    rw [List.foldl_cons, ih, map_dataOf_upsertUpdate]
    rfl

/-- In a run without store errors every statement succeeds: the batch loop
counts every record as a success and the transaction is never aborted. -/
lemma foldl_insertUserStep_noFail (us : List ValidatedUser) (now : Nat)
    (acc : BatchAcc) (h : acc.tx.aborted = false) :
    (us.foldl (insertUserStep noFail now) acc).success_count
        = acc.success_count + us.length ∧
    (us.foldl (insertUserStep noFail now) acc).failed_count
        = acc.failed_count ∧
    (us.foldl (insertUserStep noFail now) acc).errors = acc.errors ∧
    (us.foldl (insertUserStep noFail now) acc).tx
        = { pending := us.foldl (upsertUpdate now) acc.tx.pending,
            aborted := false } := by
  induction us generalizing acc with
  | nil =>
    refine ⟨rfl, rfl, rfl, ?_⟩
    rw [List.foldl_nil, List.foldl_nil]
    cases htx : acc.tx with
    | mk p ab =>
      rw [htx] at h
      simp at h
      subst h
      rfl
  | cons u us ih =>
    have hstep : insertUserStep noFail now acc u
        = { acc with
            idx := acc.idx + 1
            success_count := acc.success_count + 1
            tx := { acc.tx with pending := upsertUpdate now acc.tx.pending u } } := by
      rw [insertUserStep, if_neg (by simp [h])]
      rfl
    rw [List.foldl_cons, hstep]
    obtain ⟨h1, h2, h3, h4⟩ := ih
      { acc with
        idx := acc.idx + 1
        success_count := acc.success_count + 1
        tx := { acc.tx with pending := upsertUpdate now acc.tx.pending u } }
      (by exact h)
    refine ⟨?_, h2, h3, ?_⟩
    · rw [h1]
      show acc.success_count + 1 + us.length = acc.success_count + (us.length + 1)
      omega
    · rw [h4, List.foldl_cons]

/-- `insert_users_batch` without store errors: all records succeed, no
error messages, and the committed table is the fold of the upserts. -/
lemma insert_users_batch_noFail (now : Nat) (db : List UserRow)
    (us : List ValidatedUser) :
    insert_users_batch noFail now db us
      = ((us.length, 0, []), us.foldl (upsertUpdate now) db) := by
  obtain ⟨h1, h2, h3, h4⟩ := foldl_insertUserStep_noFail us now
    { idx := 0, success_count := 0, failed_count := 0, errors := [],
      tx := { pending := db, aborted := false } } rfl
  simp only [insert_users_batch]
  rw [h1, h2, h3, h4]
  simp

/-- C3: re-running the ingestion batch over the same records converges.
Starting from any users table with unique emails, running the batch twice
leaves emails unique, yields exactly the same set of stored applicant data
as running it once, and every ingested email holds the values of its last
record in the batch input. -/
theorem upsert_reingestion_idempotent (db : List UserRow)
    (us : List ValidatedUser) (t1 t2 : Nat)
    (hd : (db.map (fun r => r.email)).Nodup) :
    (((insert_users_batch noFail t2
          (insert_users_batch noFail t1 db us).2 us).2.map
        (fun r => r.email)).Nodup) ∧
    (∀ v : ValidatedUser,
        v ∈ (insert_users_batch noFail t2
              (insert_users_batch noFail t1 db us).2 us).2.map UserRow.dataOf
          ↔ v ∈ (insert_users_batch noFail t1 db us).2.map UserRow.dataOf) ∧
    (∀ v : ValidatedUser, lastVal us v.email = some v →
        lookupData ((insert_users_batch noFail t2
            (insert_users_batch noFail t1 db us).2 us).2.map UserRow.dataOf)
          v.email = some v) := by
  have honce : (insert_users_batch noFail t1 db us).2
      = us.foldl (upsertUpdate t1) db := by
    rw [insert_users_batch_noFail]
  have htwice : (insert_users_batch noFail t2
        (us.foldl (upsertUpdate t1) db) us).2
      = us.foldl (upsertUpdate t2) (us.foldl (upsertUpdate t1) db) := by
    rw [insert_users_batch_noFail]
  rw [honce, htwice]
  have hemail : ∀ l : List UserRow,
      l.map (fun r => r.email) = (l.map UserRow.dataOf).map (fun v => v.email) := by
    intro l
    rw [List.map_map]
    rfl
  have honceD : (us.foldl (upsertUpdate t1) db).map UserRow.dataOf
      = applyData (db.map UserRow.dataOf) us := map_dataOf_foldl us t1 db
  have htwiceD : (us.foldl (upsertUpdate t2)
        (us.foldl (upsertUpdate t1) db)).map UserRow.dataOf
      = applyData (applyData (db.map UserRow.dataOf) us) us := by
    rw [map_dataOf_foldl, honceD]
  have hNd0 : ((db.map UserRow.dataOf).map (fun v => v.email)).Nodup := by
    rw [← hemail]
    exact hd
  have hN1 : ((applyData (db.map UserRow.dataOf) us).map
      (fun v => v.email)).Nodup := nodup_emails_applyData us _ hNd0
  have hN2 : ((applyData (applyData (db.map UserRow.dataOf) us) us).map
      (fun v => v.email)).Nodup := nodup_emails_applyData us _ hN1
  have hlk : ∀ e, lookupData (applyData (applyData (db.map UserRow.dataOf) us) us) e
      = lookupData (applyData (db.map UserRow.dataOf) us) e := by
    intro e
    rw [lookupData_applyData]
    cases hl : lastVal us e with
    | some v => rw [lookupData_applyData, hl]
    | none => rfl
  refine ⟨?_, ?_, ?_⟩
  · rw [hemail, htwiceD]
    exact hN2
  · intro v
    rw [htwiceD, honceD]
    constructor
    · intro hv
      have hl := lookupData_eq_some_of_mem _ v hN2 hv
      rw [hlk] at hl
      exact (mem_of_lookupData_eq_some _ _ _ hl).1
    · intro hv
      have hl := lookupData_eq_some_of_mem _ v hN1 hv
      rw [← hlk] at hl
      exact (mem_of_lookupData_eq_some _ _ _ hl).1
  · intro v hv
    rw [htwiceD, lookupData_applyData, hv]

/-- C3 witness: ingesting alice twice from an empty table leaves her single
row holding her data. -/
theorem upsert_reingestion_idempotent_witness :
    lookupData (((insert_users_batch noFail 2
        (insert_users_batch noFail 1 [] [aliceData]).2 [aliceData]).2).map
      UserRow.dataOf) aliceData.email = some aliceData :=
  (upsert_reingestion_idempotent [] [aliceData] 1 2 (by decide)).2.2
    aliceData (by decide)

end LoanEligibility
